import Mathlib

/-!
Verification of `torch_points3d/core/spatial_ops/neighbour_finder.py`.

Shallow embedding conventions:
* Point coordinates are embedded as rationals (`ℚ`); the float heuristic of
  `FAISSGPUKNNNeighbourFinder` (numpy `sqrt`/`exp`) is idealized over the reals (`ℝ`).
* Python exceptions are embedded as `Except PyErr` results.
* Python lists are Lean `List`s; Python indexing (including negative indices)
  is `pyGet` below, with `none` standing for an `IndexError`.
* External kernels (`torch_geometric.nn.radius`, `torch_geometric.nn.knn`,
  `torch_points_kernels.ball_query`, the FAISS library) are out of scope per the
  spec; calls into them are embedded either as explicit function parameters or as
  the concrete scale-indexed arguments / event traces the code hands to them.
-/

/-- Python exceptions raised by the neighbour-finder module. -/
inductive PyErr where
  | valueError (msg : String)
  | indexError
  | notImplementedError
deriving DecidableEq

/-- Modelled from the spec: the configuration enumeration `ConvolutionFormat`
(`torch_points3d/utils/enums.py`, not under `src/`) has the three values
message-passing (sparse), dense, and partial-dense; each `.value` is a nonempty
lower-case string. -/
def ConvolutionFormat.MESSAGE_PASSING : String := "message_passing"

/-- Modelled from the spec: the dense mode value of `ConvolutionFormat`. -/
def ConvolutionFormat.DENSE : String := "dense"

/-- Modelled from the spec: the partial-dense mode value of `ConvolutionFormat`. -/
def ConvolutionFormat.PARTIAL_DENSE : String := "partial_dense"

/-- Truthiness of a Python string: nonempty strings are truthy. -/
def pyStrTruthy (s : String) : Bool := !s.isEmpty

/-- State of `RadiusNeighbourFinder` after `__init__` (lines 27-31). -/
structure RadiusNeighbourFinder where
  _radius : ℚ
  _max_num_neighbors : Nat
  _conv_type : String
deriving DecidableEq

/-- `RadiusNeighbourFinder.__init__` lower-cases the conv type (line 31). -/
def mkRadiusFinder (radius : ℚ) (max_num_neighbors : Nat) (conv_type : String) :
    RadiusNeighbourFinder :=
  ⟨radius, max_num_neighbors, conv_type.toLower⟩

/-- Which external call `RadiusNeighbourFinder.find_neighbours` dispatches to. -/
inductive RadiusDispatch where
  | radiusSearch (r : ℚ) (max_num_neighbors : Nat)
  | ballQuery (r : ℚ) (max_num_neighbors : Nat) (mode : String)
  | notImplErr
deriving DecidableEq

/-- `RadiusNeighbourFinder.find_neighbours` (lines 33-41).  The second branch of
the Python code is `elif self._conv_type == ConvolutionFormat.DENSE.value or
ConvolutionFormat.PARTIAL_DENSE.value:`; by Python precedence this is the
truthiness of `(self._conv_type == DENSE.value) or (PARTIAL_DENSE.value)`, i.e.
the equality test or-ed with the truthiness of the constant nonempty string
`"partial_dense"`. -/
def RadiusNeighbourFinder.find_neighbours (f : RadiusNeighbourFinder) : RadiusDispatch :=
  if f._conv_type = ConvolutionFormat.MESSAGE_PASSING then
    .radiusSearch f._radius f._max_num_neighbors
  else if f._conv_type = ConvolutionFormat.DENSE ∨
      pyStrTruthy ConvolutionFormat.PARTIAL_DENSE = true then
    .ballQuery f._radius f._max_num_neighbors f._conv_type
  else
    .notImplErr

/-- Point sets: ordered sequences of D-dimensional rational coordinate vectors. -/
abbrev Pts := List (List ℚ)

/-- Dense neighbour relation: batch × query × slot array of reference indices,
as returned by `tp.ball_query` in dense mode. -/
abbrev DenseRel := List (List (List ℤ))

/-- State of `FAISSGPUKNNNeighbourFinder` after `__init__` (lines 53-82). -/
structure FAISSGPUKNNNeighbourFinder where
  k : Nat
  ncells : Option Nat
  nprobes : Nat
deriving DecidableEq

/-- Externally visible device / index actions performed by
`FAISSGPUKNNNeighbourFinder.find_neighbours`, in program order. -/
inductive FaissEvent where
  | gpuResources
  | emptyCache
  | buildIndex (d : Nat) (ncells : Nat)
  | setNumProbes (nprobes : Nat)
  | search (k : Nat)
deriving DecidableEq

/-- Blend weight `p` of the `ncells` heuristic in
`FAISSGPUKNNNeighbourFinder.find_neighbours` (lines 110-113), numpy float
arithmetic idealized over `ℝ`:
`p = 1/(1 + exp(2*10**6 - n_fit))` if `n_fit > 2*10**6` else `p = 0`. -/
noncomputable def faissP (n : ℝ) : ℝ :=
  if 2 * 10 ^ 6 < n then 1 / (1 + Real.exp (2 * 10 ^ 6 - n)) else 0

/-- Pre-truncation value of the `ncells` heuristic (lines 108-114):
`p * f1 + (1 - p) * f2` with `f1 = 3.5*sqrt(n_fit)` and `f2 = 1.6*sqrt(n_fit)`. -/
noncomputable def faissNcellsVal (n : ℝ) : ℝ :=
  faissP n * (3.5 * Real.sqrt n) + (1 - faissP n) * (1.6 * Real.sqrt n)

/-- `ncells = int(p * f1 + (1 - p) * f2)` (line 114); Python `int()` truncates
toward zero, which on this nonnegative value is the floor. -/
noncomputable def faissNcells (n : ℝ) : ℤ := ⌊faissNcellsVal n⌋

/-- `FAISSGPUKNNNeighbourFinder.find_neighbours` (lines 83-129), embedded as the
guard plus the trace of device/index actions it performs in order.  The numeric
auto-`ncells` heuristic (modelled exactly by `faissNcellsVal` over `ℝ`) is a
float computation, so the executable trace model takes it as the oracle
parameter `heur`.  The search results themselves come from the external FAISS
index and are out of scope, hence the `Unit` payload. -/
def FAISSGPUKNNNeighbourFinder.find_neighbours (heur : Nat → Nat)
    (f : FAISSGPUKNNNeighbourFinder) (x y : Pts)
    (batch_x batch_y : Option (List ℤ)) :
    Except PyErr Unit × List FaissEvent :=
  if batch_x.isSome || batch_y.isSome then
    (.error .notImplementedError, [])
  else
    let n_fit := x.length
    let d := (x.headD []).length
    let k := min (min f.k n_fit) 1024
    let ncells := match f.ncells with
      | some c => c
      | none => heur n_fit
    (.ok (), [.gpuResources, .emptyCache, .buildIndex d ncells,
      .setNumProbes f.nprobes, .search k])

/-- Neighbour counts actually searched for (`search(y_np, k)` calls) in a trace. -/
def searchedKs (tr : List FaissEvent) : List Nat :=
  tr.filterMap fun e => match e with
    | .search k => some k
    | _ => none

/-- Python list read `l[i]`: non-negative indices are positional, negative
indices count from the end; `none` stands for an `IndexError`. -/
def pyGet {α : Type} (l : List α) (i : ℤ) : Option α :=
  if 0 ≤ i then l.get? i.toNat
  else if 0 ≤ i + l.length then l.get? (i + l.length).toNat
  else none

/-- Python in-place update of `l[i]` by `g` (used for the meter at
`self._dist_meters[scale_idx]`); out-of-range indices would raise in Python and
are unreachable in the places this is used. -/
def pySet {α : Type} (l : List α) (i : ℤ) (g : α → α) : List α :=
  let j : ℤ := if i < 0 then i + l.length else i
  if h : 0 ≤ j ∧ j.toNat < l.length then
    l.set j.toNat (g (l.get ⟨j.toNat, h.2⟩))
  else l

/-- Modelled from the spec: the external diagnostic collector
`DistributionNeighbour` (`torch_points3d/utils/debugging_vars.py`, not under
`src/`) is constructed from one radius and accepts per-query valid-neighbour
count observations. -/
structure DistributionNeighbour where
  radius : ℚ
  records : List Nat
deriving DecidableEq

/-- Modelled from the spec: `add_valid_neighbours` forwards one vector of
per-query valid-neighbour counts to the collector. -/
def DistributionNeighbour.add_valid_neighbours (d : DistributionNeighbour)
    (valid_neighbours : List Nat) : DistributionNeighbour :=
  ⟨d.radius, d.records ++ valid_neighbours⟩

/-- State of `MultiscaleRadiusNeighbourFinder` (and of its subclass
`DenseRadiusNeighbourFinder`) after `__init__` (lines 183-216):
per-scale radius and max-neighbour lists, plus the diagnostic meters attached
only when the `FIND_NEIGHBOUR_DIST` debugging flag is set. -/
structure MultiscaleRadiusNeighbourFinder where
  _radius : List ℚ
  _max_num_neighbors : List Nat
  _dist_meters : Option (List DistributionNeighbour)
deriving DecidableEq

/-- `num_scales` property (lines 227-229). -/
def MultiscaleRadiusNeighbourFinder.num_scales
    (f : MultiscaleRadiusNeighbourFinder) : Nat :=
  f._radius.length

/-- Wrapping `radius = [radius]` when it is not a list (line 187). -/
def wrapR : ℚ ⊕ List ℚ → List ℚ
  | .inl r => [r]
  | .inr l => l

/-- Wrapping `max_num_neighbors = [max_num_neighbors]` when it is not a list
(line 190). -/
def wrapM : Nat ⊕ List Nat → List Nat
  | .inl m => [m]
  | .inr l => l

/-- Error message of line 213. -/
def lengthMismatchMsg : String :=
  "Both lists max_num_neighbors and radius should be of the same length"

/-- Error message of lines 219 and 242 (format template). -/
def scaleOutOfBoundsMsg : String := "Scale %i is out of bounds %i"

/-- `MultiscaleRadiusNeighbourFinder.__init__` (lines 183-216).  `debug` is the
global `DEBUGGING_VARS["FIND_NEIGHBOUR_DIST"]` flag; a `Sum.inl` argument is a
scalar, a `Sum.inr` argument a Python list (`is_list`).  When `debug` is set the
code wraps both arguments into lists, attaches one `DistributionNeighbour` per
radius and replaces every max-neighbour entry by 256; both arguments then being
lists, only the list/list normalization branch (lines 208-216) is reachable.
With `debug` unset the four normalization branches are embedded in source
order. -/
def msInit (debug : Bool) (radius : ℚ ⊕ List ℚ) (max_num_neighbors : Nat ⊕ List Nat) :
    Except PyErr MultiscaleRadiusNeighbourFinder :=
  if debug then
    let rl := wrapR radius
    let ml := (wrapM max_num_neighbors).map fun _ => 256
    let meters := some (rl.map fun r => DistributionNeighbour.mk r [])
    if ml.length ≠ rl.length then .error (.valueError lengthMismatchMsg)
    else .ok ⟨rl, ml, meters⟩
  else
    match radius, max_num_neighbors with
    | .inr rl, .inl m => .ok ⟨rl, rl.map (fun _ => m), none⟩
    | .inl r, .inr ml => .ok ⟨ml.map (fun _ => r), ml, none⟩
    | .inr rl, .inr ml =>
        if ml.length ≠ rl.length then .error (.valueError lengthMismatchMsg)
        else .ok ⟨rl, ml, none⟩
    | .inl r, .inl m => .ok ⟨[r], [m], none⟩

/-- `MultiscaleRadiusNeighbourFinder.find_neighbours` (lines 218-225): the
bounds check `scale_idx >= self.num_scales` followed by delegation to the
external sparse `radius` kernel; the embedding returns the scale-indexed
`(radius, max_num_neighbors)` pair handed to that kernel.  The method assigns
nothing to `self`, so it is a pure function of the finder state. -/
def MultiscaleRadiusNeighbourFinder.find_neighbours
    (f : MultiscaleRadiusNeighbourFinder) (scale_idx : ℤ) : Except PyErr (ℚ × Nat) :=
  if (f.num_scales : ℤ) ≤ scale_idx then .error (.valueError scaleOutOfBoundsMsg)
  else
    match pyGet f._radius scale_idx, pyGet f._max_num_neighbors scale_idx with
    | some r, some m => .ok (r, m)
    | _, _ => .error .indexError

/-- Per-query count of valid neighbours in a dense row (lines 249-252):
the number of slots after slot 0 that differ from slot 0, plus one. -/
def validNeighbourCount (row : List ℤ) : Nat :=
  match row with
  | [] => 1
  | s0 :: rest => rest.countP (fun v => v != s0) + 1

/-- Debug bookkeeping of `DenseRadiusNeighbourFinder.find_neighbours`
(lines 247-254): for each batch item the per-query valid-neighbour counts are
forwarded to `self._dist_meters[scale_idx]`.  Only `_dist_meters` changes; the
`none` case is unreachable because the same global flag guards construction of
the meters and this block. -/
def recordDenseStats (f : MultiscaleRadiusNeighbourFinder) (scale_idx : ℤ)
    (neighbours : DenseRel) : MultiscaleRadiusNeighbourFinder :=
  match f._dist_meters with
  | none => f
  | some meters =>
      let counts := neighbours.map fun batchRow => batchRow.map validNeighbourCount
      ⟨f._radius, f._max_num_neighbors,
        some (pySet meters scale_idx fun d =>
          counts.foldl (fun d2 c => d2.add_valid_neighbours c) d)⟩

/-- `DenseRadiusNeighbourFinder.find_neighbours` (lines 240-255): the same
bounds check, delegation to the external `tp.ball_query` kernel (passed in as
`bq`), and, when the `FIND_NEIGHBOUR_DIST` flag is set, the diagnostic
bookkeeping.  The result pairs the returned dense relation with the
post-call finder state. -/
def DenseRadiusNeighbourFinder.find_neighbours
    (bq : ℚ → Nat → Pts → Pts → DenseRel) (debug : Bool)
    (f : MultiscaleRadiusNeighbourFinder) (x y : Pts) (scale_idx : ℤ) :
    Except PyErr (DenseRel × MultiscaleRadiusNeighbourFinder) :=
  if (f.num_scales : ℤ) ≤ scale_idx then .error (.valueError scaleOutOfBoundsMsg)
  else
    match pyGet f._radius scale_idx, pyGet f._max_num_neighbors scale_idx with
    | some r, some m =>
        let neighbours := bq r m x y
        .ok (neighbours, if debug then recordDenseStats f scale_idx neighbours else f)
    | _, _ => .error .indexError

/-- Relation component of a dense `find_neighbours` outcome. -/
def relOf (e : Except PyErr (DenseRel × MultiscaleRadiusNeighbourFinder)) :
    Except PyErr DenseRel :=
  e.map Prod.fst

/-- Whether an embedded Python call returned normally. -/
def exceptOk {α : Type} : Except PyErr α → Bool
  | .ok _ => true
  | .error _ => false

/-- Trivial stand-in for the external `tp.ball_query` kernel, used to
instantiate theorems at concrete inputs. -/
def bq0 : ℚ → Nat → Pts → Pts → DenseRel := fun _ _ _ _ => []

/-- Stand-in for the external `tp.ball_query` kernel that records the
`max_num_neighbors` argument it was handed, exhibiting that the returned
relation depends on the effective configuration. -/
def bqM : ℚ → Nat → Pts → Pts → DenseRel := fun _ m _ _ => [[[(m : ℤ)]]]

/-- State of `KNNNeighbourFinder` after `__init__` (lines 44-46); its
`find_neighbours` is a direct call into the external `torch_geometric.nn.knn`
kernel (line 49), whose sparse edge-list output `(row, col)` theorems below
take as explicit data. -/
structure KNNNeighbourFinder where
  k : Nat
deriving DecidableEq

/-- State of `DilatedKNNNeighbourFinder` after `__init__` (lines 132-135). -/
structure DilatedKNNNeighbourFinder where
  k : Nat
  dilation : Nat
  initialFinder : KNNNeighbourFinder
deriving DecidableEq

/-- `DilatedKNNNeighbourFinder.__init__` (lines 132-135): the inner exact
finder is configured for `k * dilation` neighbours. -/
def mkDilatedKNN (k dilation : Nat) : DilatedKNNNeighbourFinder :=
  ⟨k, dilation, ⟨k * dilation⟩⟩

/-- Row-major flattening of per-query blocks (`.view(-1)` of a
`(len(y), k)`-shaped tensor whose row `i` is `blocks i`). -/
def flatBlocks (blocks : Nat → List Nat) : Nat → List Nat
  | 0 => []
  | n + 1 => flatBlocks blocks n ++ blocks n

/-- The flattened gather indices of `DilatedKNNNeighbourFinder.find_neighbours`
(lines 140-145): `index = torch.randint(k*dilation, (len(y), k))` drawn by the
ambient random source (embedded as the arbitrary draw function `rand`, each
entry below `k*dilation`), shifted per query by `arange(len(y)) * (k*dilation)`
and flattened row-major. -/
def flatIndex (k dilation numY : Nat) (rand : Nat → Nat → Nat) : List Nat :=
  flatBlocks (fun i => (List.range k).map fun j => rand i j + i * (k * dilation)) numY

/-- Torch advanced indexing `v[index]` for an index tensor: all positions are
gathered, and any out-of-range position raises (embedded as `none`). -/
def gatherAll (v : List ℤ) : List Nat → Option (List ℤ)
  | [] => some []
  | n :: rest =>
    match v.get? n, gatherAll v rest with
    | some a, some w => some (a :: w)
    | _, _ => none

/-- `DilatedKNNNeighbourFinder.find_neighbours` (lines 137-149) after the inner
`knn` call: `row, col = row[index], col[index]` where `index` is `flatIndex`.
`row` and `col` are the edge lists returned by the external exact KNN kernel for
`k * dilation` neighbours, passed in as data. -/
def DilatedKNNNeighbourFinder.find_neighbours (f : DilatedKNNNeighbourFinder)
    (numY : Nat) (row col : List ℤ) (rand : Nat → Nat → Nat) :
    Option (List ℤ × List ℤ) :=
  match gatherAll row (flatIndex f.k f.dilation numY rand),
        gatherAll col (flatIndex f.k f.dilation numY rand) with
  | some row2, some col2 => some (row2, col2)
  | _, _ => none

/-- The reference indices that the exact-KNN edge list `(row, col)` pairs with
query `q`: the candidate set of `q`. -/
def knnCandidates (row col : List ℤ) (q : ℤ) : List ℤ :=
  ((row.zip col).filter fun p => p.1 == q).map Prod.snd

/-- C1: for an unrecognized mode string the claim expects `find_neighbours` to
reach the `raise NotImplementedError` branch.  In the code that branch is dead:
the `elif` condition is always truthy, so every non-message-passing mode
(recognized or not) dispatches to `tp.ball_query` with the unrecognized string
passed along as `mode`.  The theorem evaluates the dispatch for every
constructed finder and at the concrete failing input `conv_type = "bogus_mode"`
(already lower-case, so the constructed state is `⟨1, 64, "bogus_mode"⟩`). -/
theorem C1_notimplemented_branch_unreachable :
    (∀ (r : ℚ) (m : Nat) (ct : String),
      (mkRadiusFinder r m ct).find_neighbours = RadiusDispatch.radiusSearch r m ∨
      (mkRadiusFinder r m ct).find_neighbours = RadiusDispatch.ballQuery r m ct.toLower) ∧
    (RadiusNeighbourFinder.mk 1 64 "bogus_mode").find_neighbours =
      RadiusDispatch.ballQuery 1 64 "bogus_mode" := by
  constructor
  · intro r m ct
    by_cases h : ct.toLower = ConvolutionFormat.MESSAGE_PASSING
    · left
      simp [mkRadiusFinder, RadiusNeighbourFinder.find_neighbours, h]
    · right
      have hpd : pyStrTruthy ConvolutionFormat.PARTIAL_DENSE = true := by decide
      simp [mkRadiusFinder, RadiusNeighbourFinder.find_neighbours, h, hpd]
  · decide

/-- C2 (counterexample): the claim says the auto-`ncells` heuristic gives
roughly `3.5*sqrt(n)` for small `n`.  At the small reference count
`n = 10^4` the code computes `p = 0`, hence `ncells = int(1.6*sqrt(n)) = 160`,
not roughly `3.5*sqrt(n) = 350`. -/
theorem C2_counterexample :
    faissNcellsVal (10 ^ 4) = 160 ∧
    3.5 * Real.sqrt (10 ^ 4) = 350 ∧
    faissNcells (10 ^ 4) = 160 ∧
    (160 : ℝ) ≠ 350 := by
  have hs : Real.sqrt (10 ^ 4) = 100 := by
    rw [show ((10 : ℝ) ^ 4) = 100 ^ 2 by norm_num,
      Real.sqrt_sq (by norm_num : (0 : ℝ) ≤ 100)]
  have hp : faissP (10 ^ 4) = 0 := by
    unfold faissP
    rw [if_neg (by norm_num)]
  have hv : faissNcellsVal (10 ^ 4) = 160 := by
    unfold faissNcellsVal
    rw [hp, hs]
    norm_num
  refine ⟨hv, by rw [hs]; norm_num, ?_, by norm_num⟩
  unfold faissNcells
  rw [hv]
  norm_num

/-- C2 (amended): when `ncells` is not configured the code computes it from the
reference count `n` as `int(p*3.5*sqrt(n) + (1-p)*1.6*sqrt(n))` where `p` is the
logistic weight `1/(1+exp(2*10^6 - n))` for `n` beyond `2*10^6` and `p = 0`
otherwise: roughly `1.6*sqrt(n)` for small `n` and `3.5*sqrt(n)` for very large
`n` — the two regimes are the reverse of the claim's. -/
theorem C2_amended (n : ℝ) :
    (n ≤ 2 * 10 ^ 6 → faissNcellsVal n = 1.6 * Real.sqrt n) ∧
    (2 * 10 ^ 6 < n →
      faissP n = 1 / (1 + Real.exp (2 * 10 ^ 6 - n)) ∧
      1 / 2 < faissP n ∧ faissP n < 1 ∧
      1.6 * Real.sqrt n < faissNcellsVal n ∧
      faissNcellsVal n < 3.5 * Real.sqrt n) := by
  constructor
  · intro h
    have hp : faissP n = 0 := by
      unfold faissP
      rw [if_neg (not_lt.mpr h)]
    unfold faissNcellsVal
    rw [hp]
    ring
  · intro h
    have hp : faissP n = 1 / (1 + Real.exp (2 * 10 ^ 6 - n)) := by
      unfold faissP
      rw [if_pos h]
    have hepos : 0 < Real.exp (2 * 10 ^ 6 - n) := Real.exp_pos _
    have helt : Real.exp (2 * 10 ^ 6 - n) < 1 := by
      have : (2 * 10 ^ 6 : ℝ) - n < 0 := by linarith
      calc Real.exp (2 * 10 ^ 6 - n) < Real.exp 0 := Real.exp_lt_exp.mpr this
        _ = 1 := Real.exp_zero
    have hd : 0 < 1 + Real.exp (2 * 10 ^ 6 - n) := by linarith
    have hp1 : 1 / 2 < faissP n := by
      rw [hp, lt_div_iff₀ hd]
      set e := Real.exp (2 * 10 ^ 6 - n)
      linarith
    have hp2 : faissP n < 1 := by
      rw [hp, div_lt_one hd]
      set e := Real.exp (2 * 10 ^ 6 - n)
      linarith
    have hn0 : 0 < n := by nlinarith
    have hs : 0 < Real.sqrt n := Real.sqrt_pos.mpr hn0
    have hppos : 0 < faissP n := by linarith
    have hpc : 0 < 1 - faissP n := by linarith
    refine ⟨hp, hp1, hp2, ?_, ?_⟩
    · unfold faissNcellsVal
      nlinarith [mul_pos hppos hs]
    · unfold faissNcellsVal
      nlinarith [mul_pos hpc hs]

/-- Witness for `C2_amended`: the small regime at `n = 10^4` and the logistic
weight bound at `n = 4*10^6`. -/
theorem C2_amended_witness :
    faissNcellsVal (10 ^ 4) = 1.6 * Real.sqrt (10 ^ 4) ∧
    1 / 2 < faissP (4 * 10 ^ 6) :=
  ⟨(C2_amended (10 ^ 4)).1 (by norm_num),
   ((C2_amended (4 * 10 ^ 6)).2 (by norm_num)).2.1⟩

/-- C5: if either batch vector is non-null, `find_neighbours` of the FAISS
finder raises `NotImplementedError` immediately (lines 84-86): the result is the
error and the event trace is empty, i.e. no GPU resource is acquired and no
index is built or queried. -/
theorem C5_batching_guard (heur : Nat → Nat) (f : FAISSGPUKNNNeighbourFinder)
    (x y : Pts) (batch_x batch_y : Option (List ℤ))
    (h : batch_x.isSome = true ∨ batch_y.isSome = true) :
    FAISSGPUKNNNeighbourFinder.find_neighbours heur f x y batch_x batch_y =
      (.error .notImplementedError, []) := by
  unfold FAISSGPUKNNNeighbourFinder.find_neighbours
  rcases h with h | h <;> simp [h]

/-- Witness for `C5_batching_guard` at a concrete non-null `batch_x`. -/
theorem C5_batching_guard_witness :
    FAISSGPUKNNNeighbourFinder.find_neighbours (fun n => n) ⟨16, none, 10⟩ [] []
      (some [0]) none = (.error .notImplementedError, []) :=
  C5_batching_guard (fun n => n) ⟨16, none, 10⟩ [] [] (some [0]) none (Or.inl rfl)

/-- C8: in every (unbatched, hence search-performing) call of the FAISS finder,
the `k` actually searched for is `min(self.k, n_fit, k_max)` with `k_max = 1024`
and `n_fit` the reference count (lines 102-104). -/
theorem C8_searched_k_clamped (heur : Nat → Nat) (f : FAISSGPUKNNNeighbourFinder)
    (x y : Pts) :
    searchedKs (FAISSGPUKNNNeighbourFinder.find_neighbours heur f x y none none).2 =
      [min f.k (min x.length 1024)] := by
  have h : searchedKs
      (FAISSGPUKNNNeighbourFinder.find_neighbours heur f x y none none).2 =
      [min (min f.k x.length) 1024] := rfl
  rw [h, Nat.min_assoc]

/-- Read lemma: a non-negative in-range Python index reads successfully. -/
theorem pyGet_isSome_of_nonneg {α : Type} (l : List α) (i : ℤ) (h0 : 0 ≤ i)
    (h1 : i < l.length) : (pyGet l i).isSome = true := by
  have hlt : i.toNat < l.length := by omega
  unfold pyGet
  rw [if_pos h0, List.get?_eq_get hlt]
  rfl

/-- Read lemma: a negative index not below `-len` reads successfully (from the
end of the list). -/
theorem pyGet_isSome_of_neg {α : Type} (l : List α) (i : ℤ)
    (h0 : -(l.length : ℤ) ≤ i) (h1 : i < 0) : (pyGet l i).isSome = true := by
  have hlt : (i + l.length).toNat < l.length := by omega
  unfold pyGet
  rw [if_neg (by omega), if_pos (by omega), List.get?_eq_get hlt]
  rfl

/-- Unfolding lemma for `msInit` with the debug flag unset, scalar/scalar. -/
theorem msInit_false_r_m (r : ℚ) (m : Nat) :
    msInit false (.inl r) (.inl m) = .ok ⟨[r], [m], none⟩ := rfl

/-- Unfolding lemma for `msInit` with the debug flag unset, scalar radius and
list counts (broadcast of the radius). -/
theorem msInit_false_r_ml (r : ℚ) (ml : List Nat) :
    msInit false (.inl r) (.inr ml) = .ok ⟨ml.map (fun _ => r), ml, none⟩ := rfl

/-- Unfolding lemma for `msInit` with the debug flag unset, list radii and
scalar count (broadcast of the count). -/
theorem msInit_false_rl_m (rl : List ℚ) (m : Nat) :
    msInit false (.inr rl) (.inl m) = .ok ⟨rl, rl.map (fun _ => m), none⟩ := rfl

/-- Unfolding lemma for `msInit` with the debug flag unset, list/list. -/
theorem msInit_false_rl_ml (rl : List ℚ) (ml : List Nat) :
    msInit false (.inr rl) (.inr ml) =
      if ml.length ≠ rl.length then .error (.valueError lengthMismatchMsg)
      else .ok ⟨rl, ml, none⟩ := rfl

/-- Unfolding lemma for `msInit` with the debug flag set. -/
theorem msInit_true (radius : ℚ ⊕ List ℚ) (maxn : Nat ⊕ List Nat) :
    msInit true radius maxn =
      if ((wrapM maxn).map fun _ => 256).length ≠ (wrapR radius).length then
        .error (.valueError lengthMismatchMsg)
      else .ok ⟨wrapR radius, (wrapM maxn).map fun _ => 256,
        some ((wrapR radius).map fun r => ⟨r, []⟩)⟩ := rfl

/-- Construction lemma: every successful `__init__` produces per-scale lists of
equal length. -/
theorem msInit_lengths (debug : Bool) (radius : ℚ ⊕ List ℚ)
    (maxn : Nat ⊕ List Nat) (f : MultiscaleRadiusNeighbourFinder)
    (h : msInit debug radius maxn = .ok f) :
    f._max_num_neighbors.length = f._radius.length := by
  cases debug
  · rcases radius with r | rl <;> rcases maxn with m | ml
    · rw [msInit_false_r_m] at h
      injection h with h2
      subst h2
      rfl
    · rw [msInit_false_r_ml] at h
      injection h with h2
      subst h2
      simp
    · rw [msInit_false_rl_m] at h
      injection h with h2
      subst h2
      simp
    · rw [msInit_false_rl_ml] at h
      by_cases hne : ml.length ≠ rl.length
      · rw [if_pos hne] at h
        exact Except.noConfusion h
      · rw [if_neg hne] at h
        injection h with h2
        subst h2
        exact not_not.mp hne
  · rw [msInit_true] at h
    by_cases hne : (((wrapM maxn).map fun _ => 256).length ≠ (wrapR radius).length)
    · rw [if_pos hne] at h
      exact Except.noConfusion h
    · rw [if_neg hne] at h
      injection h with h2
      subst h2
      exact not_not.mp hne

/-- Mutation lemma: a successful dense `find_neighbours` call leaves the
per-scale radius and max-neighbour lists of the finder untouched (only the
diagnostic meters may change). -/
theorem denseFind_preserves_lists (bq : ℚ → Nat → Pts → Pts → DenseRel)
    (dbg : Bool) (f : MultiscaleRadiusNeighbourFinder) (x y : Pts) (i : ℤ)
    (rel : DenseRel) (g : MultiscaleRadiusNeighbourFinder)
    (h : DenseRadiusNeighbourFinder.find_neighbours bq dbg f x y i = .ok (rel, g)) :
    g._radius = f._radius ∧ g._max_num_neighbors = f._max_num_neighbors := by
  unfold DenseRadiusNeighbourFinder.find_neighbours at h
  split at h
  · exact Except.noConfusion h
  · cases hr : pyGet f._radius i <;> rw [hr] at h
    · exact Except.noConfusion h
    · cases hm : pyGet f._max_num_neighbors i <;> rw [hm] at h
      · exact Except.noConfusion h
      · simp only [Except.ok.injEq, Prod.mk.injEq] at h
        obtain ⟨-, hg⟩ := h
        subst hg
        cases dbg
        · exact ⟨rfl, rfl⟩
        · show (recordDenseStats f i _)._radius = f._radius ∧
            (recordDenseStats f i _)._max_num_neighbors = f._max_num_neighbors
          unfold recordDenseStats
          cases hme : f._dist_meters <;> simp [hme]

/-- C3 (counterexample): the claim says every `scale_idx` outside
`[0, num_scales)` raises the out-of-range error.  For a two-scale finder,
`scale_idx = -1` is outside that interval yet neither finder raises: Python
negative indexing silently selects the last scale's parameters in both the
sparse and the dense `find_neighbours`. -/
theorem C3_counterexample :
    MultiscaleRadiusNeighbourFinder.find_neighbours ⟨[1, 2], [10, 20], none⟩ (-1) =
      .ok (2, 20) ∧
    DenseRadiusNeighbourFinder.find_neighbours bq0 false
      ⟨[1, 2], [10, 20], none⟩ [] [] (-1) = .ok ([], ⟨[1, 2], [10, 20], none⟩) := by
  exact ⟨rfl, rfl⟩

/-- C3 (amended): both multiscale finders raise the out-of-range `ValueError`
exactly for `scale_idx ≥ num_scales` (so `scale_idx = num_scales` raises and
`scale_idx = num_scales - 1` succeeds, in both finders), but negative
`scale_idx` is not validated: any `scale_idx` in `[-num_scales, 0)` succeeds in
both finders via Python negative indexing. -/
theorem C3_amended (f : MultiscaleRadiusNeighbourFinder) (i : ℤ)
    (bq : ℚ → Nat → Pts → Pts → DenseRel) (debug : Bool) (x y : Pts)
    (hwf : f._max_num_neighbors.length = f._radius.length) :
    ((f.num_scales : ℤ) ≤ i →
      f.find_neighbours i = .error (.valueError scaleOutOfBoundsMsg) ∧
      DenseRadiusNeighbourFinder.find_neighbours bq debug f x y i =
        .error (.valueError scaleOutOfBoundsMsg)) ∧
    (0 ≤ i → i < (f.num_scales : ℤ) →
      exceptOk (f.find_neighbours i) = true ∧
      exceptOk (DenseRadiusNeighbourFinder.find_neighbours bq debug f x y i) = true) ∧
    (-(f.num_scales : ℤ) ≤ i → i < 0 →
      exceptOk (f.find_neighbours i) = true ∧
      exceptOk (DenseRadiusNeighbourFinder.find_neighbours bq debug f x y i) = true) := by
  refine ⟨fun h => ⟨?_, ?_⟩, fun h0 h1 => ?_, fun h0 h1 => ?_⟩
  · unfold MultiscaleRadiusNeighbourFinder.find_neighbours
    rw [if_pos h]
  · unfold DenseRadiusNeighbourFinder.find_neighbours
    rw [if_pos h]
  · have hns : ¬ ((f.num_scales : ℤ) ≤ i) := by omega
    have h1r : i < (f._radius.length : ℤ) := h1
    have hr := pyGet_isSome_of_nonneg f._radius i h0 h1r
    have hm := pyGet_isSome_of_nonneg f._max_num_neighbors i h0 (by omega)
    obtain ⟨r, hr⟩ := Option.isSome_iff_exists.mp hr
    obtain ⟨m, hm⟩ := Option.isSome_iff_exists.mp hm
    constructor
    · unfold MultiscaleRadiusNeighbourFinder.find_neighbours
      rw [if_neg hns, hr, hm]
      rfl
    · unfold DenseRadiusNeighbourFinder.find_neighbours
      rw [if_neg hns, hr, hm]
      cases debug <;> rfl
  · have hns : ¬ ((f.num_scales : ℤ) ≤ i) := by omega
    have h0r : -((f._radius.length : ℤ)) ≤ i := h0
    have hr := pyGet_isSome_of_neg f._radius i h0r h1
    have hm := pyGet_isSome_of_neg f._max_num_neighbors i (by omega) h1
    obtain ⟨r, hr⟩ := Option.isSome_iff_exists.mp hr
    obtain ⟨m, hm⟩ := Option.isSome_iff_exists.mp hm
    constructor
    · unfold MultiscaleRadiusNeighbourFinder.find_neighbours
      rw [if_neg hns, hr, hm]
      rfl
    · unfold DenseRadiusNeighbourFinder.find_neighbours
      rw [if_neg hns, hr, hm]
      cases debug <;> rfl

/-- Witness for `C3_amended` on a concrete two-scale finder: scale 2 raises in
both finders, scale 1 (= num_scales - 1) succeeds in both, and scale -2 also
succeeds in both. -/
theorem C3_amended_witness :
    MultiscaleRadiusNeighbourFinder.find_neighbours ⟨[1, 2], [10, 20], none⟩ 2 =
      .error (.valueError scaleOutOfBoundsMsg) ∧
    DenseRadiusNeighbourFinder.find_neighbours bq0 false
      ⟨[1, 2], [10, 20], none⟩ [] [] 2 = .error (.valueError scaleOutOfBoundsMsg) ∧
    exceptOk (MultiscaleRadiusNeighbourFinder.find_neighbours
      ⟨[1, 2], [10, 20], none⟩ 1) = true ∧
    exceptOk (DenseRadiusNeighbourFinder.find_neighbours bq0 false
      ⟨[1, 2], [10, 20], none⟩ [] [] 1) = true ∧
    exceptOk (MultiscaleRadiusNeighbourFinder.find_neighbours
      ⟨[1, 2], [10, 20], none⟩ (-2)) = true ∧
    exceptOk (DenseRadiusNeighbourFinder.find_neighbours bq0 false
      ⟨[1, 2], [10, 20], none⟩ [] [] (-2)) = true :=
  ⟨((C3_amended ⟨[1, 2], [10, 20], none⟩ 2 bq0 false [] [] rfl).1 (by decide)).1,
   ((C3_amended ⟨[1, 2], [10, 20], none⟩ 2 bq0 false [] [] rfl).1 (by decide)).2,
   ((C3_amended ⟨[1, 2], [10, 20], none⟩ 1 bq0 false [] [] rfl).2.1 (by decide) (by decide)).1,
   ((C3_amended ⟨[1, 2], [10, 20], none⟩ 1 bq0 false [] [] rfl).2.1 (by decide) (by decide)).2,
   ((C3_amended ⟨[1, 2], [10, 20], none⟩ (-2) bq0 false [] [] rfl).2.2 (by decide) (by decide)).1,
   ((C3_amended ⟨[1, 2], [10, 20], none⟩ (-2) bq0 false [] [] rfl).2.2 (by decide) (by decide)).2⟩

/-- C4 (counterexample): the claim says the `FIND_NEIGHBOUR_DIST` diagnostic
flag never alters the returned relation or the effective configuration.  But
construction with the flag set rewrites every per-scale max-neighbour count to
256 (line 192): a finder configured with `max_num_neighbors = 64` ends up with
`[256]` instead of `[64]`, and a ball-query kernel whose output depends on that
argument returns a different relation for the two constructions. -/
theorem C4_counterexample :
    msInit true (.inl 1) (.inl 64) = .ok ⟨[1], [256], some [⟨1, []⟩]⟩ ∧
    msInit false (.inl 1) (.inl 64) = .ok ⟨[1], [64], none⟩ ∧
    relOf (DenseRadiusNeighbourFinder.find_neighbours bqM true
      ⟨[1], [256], some [⟨1, []⟩]⟩ [] [] 0) = .ok [[[256]]] ∧
    relOf (DenseRadiusNeighbourFinder.find_neighbours bqM false
      ⟨[1], [64], none⟩ [] [] 0) = .ok [[[64]]] ∧
    ([[[(256 : ℤ)]]] : DenseRel) ≠ [[[64]]] := by
  exact ⟨rfl, rfl, rfl, rfl, by decide⟩

/-- C4 (amended): the per-call diagnostic bookkeeping of the dense
`find_neighbours` never alters the returned relation (with the finder state
fixed, the relation is identical with the flag on or off; only the meters
change); however, enabling `FIND_NEIGHBOUR_DIST` at construction time rewrites
the effective configuration: every per-scale max-neighbour count becomes 256,
which can change the relation of subsequent searches. -/
theorem C4_amended :
    (∀ (bq : ℚ → Nat → Pts → Pts → DenseRel) (f : MultiscaleRadiusNeighbourFinder)
        (x y : Pts) (i : ℤ),
      relOf (DenseRadiusNeighbourFinder.find_neighbours bq true f x y i) =
        relOf (DenseRadiusNeighbourFinder.find_neighbours bq false f x y i)) ∧
    (∀ (radius : ℚ ⊕ List ℚ) (maxn : Nat ⊕ List Nat)
        (f : MultiscaleRadiusNeighbourFinder),
      msInit true radius maxn = .ok f →
      ∀ v ∈ f._max_num_neighbors, v = 256) := by
  constructor
  · intro bq f x y i
    unfold DenseRadiusNeighbourFinder.find_neighbours
    split
    · rfl
    · cases hr : pyGet f._radius i <;> cases hm : pyGet f._max_num_neighbors i <;>
        simp [relOf, Except.map]
  · intro radius maxn f h
    rw [msInit_true] at h
    by_cases hne : (((wrapM maxn).map fun _ => 256).length ≠ (wrapR radius).length)
    · rw [if_pos hne] at h
      exact Except.noConfusion h
    · rw [if_neg hne] at h
      injection h with h2
      subst h2
      intro v hv
      simp only [List.mem_map] at hv
      obtain ⟨w, -, hv2⟩ := hv
      exact hv2.symm

/-- Witness for `C4_amended`: the relation-invariance at a concrete finder and
the 256-override for the concrete debug construction of `C4_counterexample`. -/
theorem C4_amended_witness :
    relOf (DenseRadiusNeighbourFinder.find_neighbours bq0 true
      ⟨[1], [256], some [⟨1, []⟩]⟩ [] [] 0) =
      relOf (DenseRadiusNeighbourFinder.find_neighbours bq0 false
        ⟨[1], [256], some [⟨1, []⟩]⟩ [] [] 0) ∧
    (256 : Nat) = 256 :=
  ⟨C4_amended.1 bq0 ⟨[1], [256], some [⟨1, []⟩]⟩ [] [] 0,
   C4_amended.2 (.inl 1) (.inl 64) ⟨[1], [256], some [⟨1, []⟩]⟩ rfl 256 (by decide)⟩

/-- C6: construction of a multiscale radius finder canonicalizes its inputs:
scalar radius `R` with list counts `[a, b, c]` yields the paired scale list
`[(R, a), (R, b), (R, c)]`; symmetrically a scalar count broadcasts over a list
of radii; two lists of different lengths raise the `ValueError`. -/
theorem C6_canonicalization (R : ℚ) (a b c : Nat) (x1 x2 x3 : ℚ) (m : Nat)
    (rl : List ℚ) (ml : List Nat) (hlen : ml.length ≠ rl.length) :
    (msInit false (.inl R) (.inr [a, b, c]) = .ok ⟨[R, R, R], [a, b, c], none⟩ ∧
      List.zip [R, R, R] [a, b, c] = [(R, a), (R, b), (R, c)]) ∧
    (msInit false (.inr [x1, x2, x3]) (.inl m) =
        .ok ⟨[x1, x2, x3], [m, m, m], none⟩ ∧
      List.zip [x1, x2, x3] [m, m, m] = [(x1, m), (x2, m), (x3, m)]) ∧
    msInit false (.inr rl) (.inr ml) = .error (.valueError lengthMismatchMsg) := by
  refine ⟨⟨rfl, rfl⟩, ⟨rfl, rfl⟩, ?_⟩
  rw [msInit_false_rl_ml, if_pos hlen]

/-- Witness for `C6_canonicalization` at concrete scales. -/
theorem C6_canonicalization_witness :
    msInit false (.inl (5 : ℚ)) (.inr [1, 2, 3]) = .ok ⟨[5, 5, 5], [1, 2, 3], none⟩ ∧
    msInit false (.inr [(9 : ℚ)]) (.inr [7, 8]) =
      .error (.valueError lengthMismatchMsg) :=
  ⟨((C6_canonicalization 5 1 2 3 0 0 0 4 [9] [7, 8] (by decide)).1).1,
   (C6_canonicalization 5 1 2 3 0 0 0 4 [9] [7, 8] (by decide)).2.2⟩

/-- C9: for every successfully constructed multiscale finder the per-scale
radius and max-neighbour lists have equal length, `num_scales` is that common
length, and no dense `find_neighbours` call modifies either list (the sparse
`find_neighbours` is a pure function of the state by construction, see its
definition). -/
theorem C9_scale_lists_invariant (debug : Bool) (radius : ℚ ⊕ List ℚ)
    (maxn : Nat ⊕ List Nat) (f : MultiscaleRadiusNeighbourFinder)
    (h : msInit debug radius maxn = .ok f) :
    f._max_num_neighbors.length = f._radius.length ∧
    f.num_scales = f._radius.length ∧
    ∀ (bq : ℚ → Nat → Pts → Pts → DenseRel) (dbg : Bool) (x y : Pts) (i : ℤ)
      (rel : DenseRel) (g : MultiscaleRadiusNeighbourFinder),
      DenseRadiusNeighbourFinder.find_neighbours bq dbg f x y i = .ok (rel, g) →
      g._radius = f._radius ∧ g._max_num_neighbors = f._max_num_neighbors := by
  refine ⟨msInit_lengths debug radius maxn f h, rfl, ?_⟩
  intro bq dbg x y i rel g hfind
  exact denseFind_preserves_lists bq dbg f x y i rel g hfind

/-- Witness for `C9_scale_lists_invariant` on a concrete scalar/scalar
construction and a concrete dense call. -/
theorem C9_scale_lists_invariant_witness :
    ([5] : List Nat).length = ([(1 : ℚ)] : List ℚ).length ∧
    ([(1 : ℚ)] : List ℚ) = [(1 : ℚ)] := by
  have h := C9_scale_lists_invariant false (.inl 1) (.inl 5) ⟨[1], [5], none⟩ rfl
  exact ⟨h.1, (h.2.2 bq0 false [] [] 0 [] ⟨[1], [5], none⟩ rfl).1⟩

/-- Gather lemma: a successful gather returns one element per index. -/
theorem gatherAll_length (v : List ℤ) (idxs : List Nat) (w : List ℤ)
    (h : gatherAll v idxs = some w) : w.length = idxs.length := by
  induction idxs generalizing w with
  | nil =>
    injection h with h2
    subst h2
    rfl
  | cons n rest ih =>
    unfold gatherAll at h
    cases hv : v.get? n <;> rw [hv] at h
    · exact Option.noConfusion h
    · cases hg : gatherAll v rest <;> rw [hg] at h
      · exact Option.noConfusion h
      · injection h with h2
        subst h2
        simp [ih _ hg]

/-- Gather lemma: position `t` of a successful gather holds `v[idxs[t]]`. -/
theorem gatherAll_get? (v : List ℤ) (idxs : List Nat) (w : List ℤ)
    (h : gatherAll v idxs = some w) (t n : Nat) (hn : idxs.get? t = some n) :
    w.get? t = v.get? n := by
  induction idxs generalizing w t with
  | nil => simp at hn
  | cons m rest ih =>
    unfold gatherAll at h
    cases hv : v.get? m <;> rw [hv] at h
    · exact Option.noConfusion h
    · cases hg : gatherAll v rest <;> rw [hg] at h
      · exact Option.noConfusion h
      · injection h with h2
        subst h2
        cases t with
        | zero =>
          rw [List.get?_cons_zero] at hn
          injection hn with hn2
          subst hn2
          rw [List.get?_cons_zero, hv]
        | succ t2 =>
          rw [List.get?_cons_succ] at hn
          rw [List.get?_cons_succ]
          exact ih _ hg t2 hn

/-- Gather lemma: if every index is in range the gather succeeds. -/
theorem gatherAll_total (v : List ℤ) (idxs : List Nat)
    (hb : ∀ n ∈ idxs, n < v.length) : ∃ w, gatherAll v idxs = some w := by
  induction idxs with
  | nil => exact ⟨[], rfl⟩
  | cons n rest ih =>
    obtain ⟨w, hw⟩ := ih fun m hm => hb m (List.mem_cons_of_mem _ hm)
    have hn : n < v.length := hb n (List.mem_cons_self _ _)
    exact ⟨v.get ⟨n, hn⟩ :: w, by
      unfold gatherAll
      rw [List.get?_eq_get hn, hw]⟩

/-- Flattening lemma: length of a flattening of constant-width blocks. -/
theorem flatBlocks_length (blocks : Nat → List Nat) (k : Nat)
    (hk : ∀ i, (blocks i).length = k) (n : Nat) :
    (flatBlocks blocks n).length = n * k := by
  induction n with
  | zero => simp [flatBlocks]
  | succ n ih => simp [flatBlocks, ih, hk, Nat.succ_mul]

/-- Flattening lemma: every element of the flattening is in some block. -/
theorem flatBlocks_mem (blocks : Nat → List Nat) (n t : Nat)
    (h : t ∈ flatBlocks blocks n) : ∃ i, i < n ∧ t ∈ blocks i := by
  induction n with
  | zero => simp [flatBlocks] at h
  | succ n ih =>
    simp only [flatBlocks, List.mem_append] at h
    rcases h with h | h
    · obtain ⟨i, hi, hmem⟩ := ih h
      exact ⟨i, Nat.lt_succ_of_lt hi, hmem⟩
    · exact ⟨n, Nat.lt_succ_self n, h⟩

/-- Flattening lemma: row-major position `i * k + j` of a flattening of
`k`-wide blocks reads position `j` of block `i`. -/
theorem flatBlocks_get? (blocks : Nat → List Nat) (k : Nat)
    (hk : ∀ i, (blocks i).length = k) (n i j : Nat) (hi : i < n) (hj : j < k) :
    (flatBlocks blocks n).get? (i * k + j) = (blocks i).get? j := by
  induction n with
  | zero => omega
  | succ n ih =>
    by_cases hin : i < n
    · have hlt : i * k + j < (flatBlocks blocks n).length := by
        rw [flatBlocks_length blocks k hk n]
        calc i * k + j < i * k + k := by omega
          _ = (i + 1) * k := by ring
          _ ≤ n * k := Nat.mul_le_mul_right k hin
      show ((flatBlocks blocks n) ++ blocks n).get? (i * k + j) = _
      rw [List.get?_append hlt]
      exact ih hin
    · have hieq : i = n := by omega
      subst hieq
      have hge : (flatBlocks blocks i).length ≤ i * k + j := by
        rw [flatBlocks_length blocks k hk i]
        omega
      show ((flatBlocks blocks i) ++ blocks i).get? (i * k + j) = _
      rw [List.get?_append_right hge, flatBlocks_length blocks k hk i]
      congr 1
      omega

/-- Zip lemma: position `p` of a zip pairs position `p` of both lists. -/
theorem zip_get? {α β : Type} (l1 : List α) (l2 : List β) (p : Nat) (a : α)
    (b : β) (h1 : l1.get? p = some a) (h2 : l2.get? p = some b) :
    (l1.zip l2).get? p = some (a, b) := by
  induction l1 generalizing l2 p with
  | nil => simp at h1
  | cons x xs ih =>
    cases l2 with
    | nil => simp at h2
    | cons y ys =>
      cases p with
      | zero =>
        rw [List.get?_cons_zero] at h1 h2
        injection h1 with h1b
        injection h2 with h2b
        subst h1b
        subst h2b
        rfl
      | succ p2 =>
        rw [List.get?_cons_succ] at h1 h2
        rw [List.zip_cons_cons, List.get?_cons_succ]
        exact ih ys p2 h1 h2

/-- Membership lemma: an edge `(q, c)` of the KNN edge list puts `c` in the
candidate set of `q`. -/
theorem mem_knnCandidates (row col : List ℤ) (p : Nat) (q c : ℤ)
    (hq : row.get? p = some q) (hc : col.get? p = some c) :
    c ∈ knnCandidates row col q := by
  have hmem : (q, c) ∈ row.zip col := List.get?_mem (zip_get? row col p q c hq hc)
  unfold knnCandidates
  refine List.mem_map.mpr ⟨(q, c), ?_, rfl⟩
  exact List.mem_filter.mpr ⟨hmem, by simp⟩

/-- Inversion lemma for the dilated gather: a returned relation comes from one
successful gather of each edge list at the flattened random indices. -/
theorem dilated_find_inv (f : DilatedKNNNeighbourFinder) (numY : Nat)
    (row col row2 col2 : List ℤ) (rand : Nat → Nat → Nat)
    (hg : f.find_neighbours numY row col rand = some (row2, col2)) :
    gatherAll row (flatIndex f.k f.dilation numY rand) = some row2 ∧
    gatherAll col (flatIndex f.k f.dilation numY rand) = some col2 := by
  unfold DilatedKNNNeighbourFinder.find_neighbours at hg
  cases hr : gatherAll row (flatIndex f.k f.dilation numY rand) <;> rw [hr] at hg
  · exact Option.noConfusion hg
  · cases hc : gatherAll col (flatIndex f.k f.dilation numY rand) <;> rw [hc] at hg
    · exact Option.noConfusion hg
    · injection hg with hg2
      injection hg2 with hg3 hg4
      subst hg3
      subst hg4
      exact ⟨rfl, rfl⟩

/-- C7: the dilated finder's inner exact finder is configured for
`k * dilation` neighbours, and whenever the gather step returns a relation,
every returned pair `(row2[t], col2[t])` is an edge of the inner exact-KNN
relation — so each returned reference index belongs to the `k * dilation`-sized
exact-KNN candidate set of the query it is returned for.  The random draw
`rand` is arbitrary, covering every possible outcome of
`torch.randint(k*dilation, (len(y), k))` (sampling with replacement). -/
theorem C7_dilated_subset (k dil numY : Nat) (row col : List ℤ)
    (rand : Nat → Nat → Nat) (row2 col2 : List ℤ)
    (hg : (mkDilatedKNN k dil).find_neighbours numY row col rand =
      some (row2, col2)) :
    (mkDilatedKNN k dil).initialFinder.k = k * dil ∧
    col2.length = row2.length ∧
    ∀ t (ht : t < row2.length) (ht2 : t < col2.length),
      col2.get ⟨t, ht2⟩ ∈ knnCandidates row col (row2.get ⟨t, ht⟩) := by
  have hinv := dilated_find_inv (mkDilatedKNN k dil) numY row col row2 col2 rand hg
  have hr : gatherAll row (flatIndex k dil numY rand) = some row2 := hinv.1
  have hc : gatherAll col (flatIndex k dil numY rand) = some col2 := hinv.2
  refine ⟨rfl, ?_, ?_⟩
  · rw [gatherAll_length col _ _ hc, gatherAll_length row _ _ hr]
  · intro t ht ht2
    have htF : t < (flatIndex k dil numY rand).length := by
      rw [← gatherAll_length row _ _ hr]
      exact ht
    have hn : (flatIndex k dil numY rand).get? t =
        some ((flatIndex k dil numY rand).get ⟨t, htF⟩) := List.get?_eq_get htF
    have hrowq : row2.get? t = row.get? ((flatIndex k dil numY rand).get ⟨t, htF⟩) :=
      gatherAll_get? row _ row2 hr t _ hn
    have hcolq : col2.get? t = col.get? ((flatIndex k dil numY rand).get ⟨t, htF⟩) :=
      gatherAll_get? col _ col2 hc t _ hn
    rw [List.get?_eq_get ht] at hrowq
    rw [List.get?_eq_get ht2] at hcolq
    exact mem_knnCandidates row col ((flatIndex k dil numY rand).get ⟨t, htF⟩)
      _ _ hrowq.symm hcolq.symm

/-- Witness for `C7_dilated_subset`: a one-query, one-neighbour instance in
which the single returned reference index 7 lies in the candidate set of
query 0. -/
theorem C7_dilated_subset_witness :
    (mkDilatedKNN 1 1).initialFinder.k = 1 * 1 ∧
    (7 : ℤ) ∈ knnCandidates [0] [7] 0 := by
  have h := C7_dilated_subset 1 1 1 [0] [7] (fun _ _ => 0) [0] [7] rfl
  exact ⟨h.1, h.2.2 0 (by decide) (by decide)⟩

/-- C10: when the inner exact KNN search returns exactly `k * dilation` edges
for each of the `numY` query points (edge lists of length `numY * k * dilation`,
grouped by query), every gather index computed from the random draw is strictly
below the edge-list length, the gather succeeds, and the sampled candidates are
attributed to the correct query point (`row[i * k + j] = i` in the output).
The code performs no check for the shortfall case: with fewer returned edges the
gather aborts out of bounds, as the final (closed) conjunct shows on a
two-query instance whose edge lists hold one edge per query instead of two. -/
theorem C10_gather_welldefined (k dil numY : Nat) (row col : List ℤ)
    (rand : Nat → Nat → Nat)
    (hrow : row.length = numY * (k * dil))
    (hcol : col.length = numY * (k * dil))
    (hgrp : ∀ i j, i < numY → j < k * dil →
      row.get? (i * (k * dil) + j) = some (i : ℤ))
    (hrand : ∀ i j, i < numY → j < k → rand i j < k * dil) :
    (∀ t ∈ flatIndex k dil numY rand, t < row.length) ∧
    (∃ pr, (mkDilatedKNN k dil).find_neighbours numY row col rand = some pr ∧
      ∀ i j, i < numY → j < k → pr.1.get? (i * k + j) = some (i : ℤ)) ∧
    (mkDilatedKNN 1 2).find_neighbours 2 [0, 1] [5, 6] (fun _ _ => 1) = none := by
  have hblen : ∀ i, ((List.range k).map fun j => rand i j + i * (k * dil)).length = k := by
    intro i
    simp
  have hb : ∀ t ∈ flatIndex k dil numY rand, t < row.length := by
    intro t hmem
    obtain ⟨i, hi, hmem2⟩ := flatBlocks_mem _ numY t hmem
    simp only [List.mem_map, List.mem_range] at hmem2
    obtain ⟨j, hj, hval⟩ := hmem2
    have h1 : rand i j + i * (k * dil) < (i + 1) * (k * dil) := by
      have := hrand i j hi hj
      calc rand i j + i * (k * dil) < k * dil + i * (k * dil) := by omega
        _ = (i + 1) * (k * dil) := by ring
    have h2 : (i + 1) * (k * dil) ≤ numY * (k * dil) :=
      Nat.mul_le_mul_right (k * dil) hi
    rw [hrow]
    omega
  refine ⟨hb, ?_, by rfl⟩
  obtain ⟨w, hw⟩ := gatherAll_total row _ hb
  obtain ⟨wc, hwc⟩ := gatherAll_total col _ (by
    intro t hmem
    have := hb t hmem
    omega)
  refine ⟨(w, wc), ?_, ?_⟩
  · show (match gatherAll row (flatIndex k dil numY rand),
        gatherAll col (flatIndex k dil numY rand) with
      | some r2, some c2 => some (r2, c2)
      | _, _ => none) = some (w, wc)
    rw [hw, hwc]
  · intro i j hi hj
    have hFg : (flatIndex k dil numY rand).get? (i * k + j) =
        some (i * (k * dil) + rand i j) := by
      unfold flatIndex
      rw [flatBlocks_get? _ k hblen numY i j hi hj, List.get?_map,
        List.get?_range hj]
      simp [Nat.add_comm]
    have hwget := gatherAll_get? row _ w hw (i * k + j) _ hFg
    show w.get? (i * k + j) = some (i : ℤ)
    rw [hwget]
    exact hgrp i (rand i j) hi (hrand i j hi hj)

/-- Witness for `C10_gather_welldefined`: the full-output precondition on a
one-query instance (and the shortfall conjunct, which is closed). -/
theorem C10_gather_welldefined_witness :
    (mkDilatedKNN 1 2).find_neighbours 2 [0, 1] [5, 6] (fun _ _ => 1) = none :=
  (C10_gather_welldefined 1 1 1 [0] [7] (fun _ _ => 0) (by decide) (by decide)
    (by
      intro i j hi hj
      have hi0 : i = 0 := by omega
      have hj0 : j = 0 := by omega
      subst hi0
      subst hj0
      rfl)
    (by
      intro i j hi hj
      show 0 < 1 * 1
      decide)).2.2
